import Mathlib

/-!
Verification development for a flight-market simulator (solution.py).

The program has three parts:
* a class FlightOption whose constructor derives all attributes (day name,
  airline tier, flight type, price, departure time) from a day index, the
  current market base price, a week start offset, and three random draws;
* a method calculate_score mapping an option to an integer pain score;
* two functions generate_flight_data (a random-walk market over N days) and
  find_best_flight (minimum-score selection with a strict less-than scan).

Randomness is embedded by passing the results of the random draws as explicit
parameters: each call to random.random() becomes a rational in the unit
interval, each randint becomes an integer parameter, and the per-day draws of
the generation loop become functions from the day number to the drawn values.
-/

/-- Weight constant: willingness to pay to avoid a layover. -/
def VALUE_OF_DIRECT_FLIGHT : ℤ := 60

/-- Weight constant: willingness to pay to avoid awkward departure times. -/
def VALUE_OF_GOOD_TIME : ℤ := 40

/-- Weight constant: willingness to pay for a premium airline. -/
def VALUE_OF_PREMIUM_AIRLINE : ℤ := 50

/-- Weight constant: cost of waiting one extra day. -/
def DAILY_PATIENCE_COST : ℤ := 5

/-- Days of the week, as in the source module-level list. -/
def DAYS_OF_WEEK : List String := ["Mon", "Tue", "Wed", "Thu", "Fri", "Sat", "Sun"]

/-- The record produced by the FlightOption constructor: one field per
attribute the Python object carries after initialization. -/
structure FlightOption where
  day_index : ℕ
  day_name : String
  airline : String
  quality_bonus : Bool
  is_direct : Bool
  price : ℤ
  time_str : String
  time_quality : String
deriving Repr, DecidableEq

/-- The random draws consumed by one FlightOption constructor call:
airlineDraw and typeDraw model the two random.random() results (floats in
the unit interval, embedded as rationals) and hour models randint(5, 23). -/
structure Draws where
  airlineDraw : ℚ
  typeDraw : ℚ
  hour : ℕ
deriving Repr, DecidableEq

/-- Embedding of FlightOption.__init__: computes every attribute from the day
index, the current base market price, the week start offset and the random
draws, following the source statement by statement.  The Python membership
tests day_name in [..] become disjunctions of equalities; list indexing
DAYS_OF_WEEK[n] with n in [0, 6] becomes List.getD with an unused default. -/
def FlightOption.init (day_index : ℕ) (base_market_price : ℤ)
    (start_day_offset : ℕ) (d : Draws) : FlightOption :=
  let current_day_num := (day_index + start_day_offset) % 7
  let day_name := DAYS_OF_WEEK.getD current_day_num ""
  let airline := if d.airlineDraw < 1/2 then "LuxAir" else "CheapJet"
  let quality_bonus := if d.airlineDraw < 1/2 then true else false
  let price_modifier : ℤ := if d.airlineDraw < 1/2 then 50 else -30
  let is_direct := if d.typeDraw < 2/5 then false else true
  let price_modifier : ℤ :=
    if d.typeDraw < 2/5 then price_modifier - 60 else price_modifier + 20
  let price := base_market_price + price_modifier
  let price :=
    if day_name = "Fri" ∨ day_name = "Sun" then price + 80
    else if day_name = "Tue" ∨ day_name = "Wed" then price - 40
    else price
  let price := if day_index < 3 then price + 150 else price
  let hour := d.hour
  let time_str := (if hour < 10 then "0" ++ toString hour else toString hour) ++ ":00"
  let time_quality :=
    if 10 ≤ hour ∧ hour ≤ 16 then "Prime"
    else if hour < 8 ∨ hour > 20 then "Awkward"
    else "Standard"
  let price :=
    if 10 ≤ hour ∧ hour ≤ 16 then price + 30
    else if hour < 8 ∨ hour > 20 then price - 30
    else price
  let price := max 100 price
  { day_index := day_index, day_name := day_name, airline := airline,
    quality_bonus := quality_bonus, is_direct := is_direct, price := price,
    time_str := time_str, time_quality := time_quality }

/-- Embedding of FlightOption.calculate_score: the weighted sum model, read
off the accumulating statements of the source method. -/
def FlightOption.calculate_score (f : FlightOption) : ℤ :=
  let score := f.price
  let score := score + (f.day_index : ℤ) * DAILY_PATIENCE_COST
  let score := if ¬ f.is_direct then score + VALUE_OF_DIRECT_FLIGHT else score
  let score := if f.time_quality = "Awkward" then score + VALUE_OF_GOOD_TIME else score
  let score := if f.quality_bonus then score - VALUE_OF_PREMIUM_AIRLINE else score
  score

/-- The loop body state of generate_flight_data: builds the flight list for
the remaining days, carrying the current day number and market price.  The
per-day constructor draws and the per-day random-walk steps are supplied as
functions of the day number. -/
def genLoop (start_day_offset : ℕ) (draws : ℕ → Draws) (steps : ℕ → ℤ) :
    ℕ → ℕ → ℤ → List FlightOption
  | _, 0, _ => []
  | day, rem + 1, market_price =>
    FlightOption.init day market_price start_day_offset (draws day) ::
      genLoop start_day_offset draws steps (day + 1) rem
        (max 200 (market_price + steps day))

/-- Embedding of generate_flight_data: days is the requested day count (an
integer, so that nonpositive counts are expressible; Python range(days) is
empty for days not positive, hence the Int.toNat), market_price the initial
randint(700, 1100) draw, start_day_offset the randint(0, 6) draw, draws the
per-day constructor draws, steps the per-day randint(-60, 60) drift draws.
Each iteration first emits the offer for the current day from the current
market price, then advances the market price by the drift step floored at
200, exactly in source order. -/
def generate_flight_data (days : ℤ) (market_price : ℤ) (start_day_offset : ℕ)
    (draws : ℕ → Draws) (steps : ℕ → ℤ) : List FlightOption :=
  genLoop start_day_offset draws steps 0 days.toNat market_price

/-- One step of the selection loop of find_best_flight: the accumulator pairs
the current best flight (None before any iteration) with the current lowest
score, where the initial float infinity is embedded as the top element of
WithTop ℤ, which every integer score compares strictly below. -/
def bestStep (acc : Option FlightOption × WithTop ℤ) (flight : FlightOption) :
    Option FlightOption × WithTop ℤ :=
  if (flight.calculate_score : WithTop ℤ) < acc.2 then
    (some flight, (flight.calculate_score : WithTop ℤ))
  else acc

/-- Embedding of find_best_flight: linear scan with a strict less-than update,
returning the tracked best flight (None on an empty list). -/
def find_best_flight (flights : List FlightOption) : Option FlightOption :=
  (flights.foldl bestStep (none, (⊤ : WithTop ℤ))).1

/-- The day_index attribute set by the constructor is its day_index argument. -/
lemma FlightOption.init_day_index (day : ℕ) (mp : ℤ) (off : ℕ) (d : Draws) :
    (FlightOption.init day mp off d).day_index = day := rfl

/-- The day_name attribute set by the constructor is the weekday list indexed
by the day index plus the start offset, modulo 7. -/
lemma FlightOption.init_day_name (day : ℕ) (mp : ℤ) (off : ℕ) (d : Draws) :
    (FlightOption.init day mp off d).day_name =
      DAYS_OF_WEEK.getD ((day + off) % 7) "" := rfl

/-- The is_direct attribute set by the constructor: false exactly when the
flight-type draw falls below the layover threshold of the source. -/
lemma FlightOption.init_is_direct (day : ℕ) (mp : ℤ) (off : ℕ) (d : Draws) :
    (FlightOption.init day mp off d).is_direct =
      (if d.typeDraw < 2/5 then false else true) := rfl

/-- The price attribute set by the constructor, rewritten as one flat sum of
the base price and the five conditional modifiers, floored at 100. -/
lemma FlightOption.init_price (day : ℕ) (mp : ℤ) (off : ℕ) (d : Draws) :
    (FlightOption.init day mp off d).price =
      max 100 (mp
        + (if d.airlineDraw < 1/2 then 50 else -30)
        + (if d.typeDraw < 2/5 then -60 else 20)
        + (if DAYS_OF_WEEK.getD ((day + off) % 7) "" = "Fri" ∨
              DAYS_OF_WEEK.getD ((day + off) % 7) "" = "Sun" then 80
           else if DAYS_OF_WEEK.getD ((day + off) % 7) "" = "Tue" ∨
              DAYS_OF_WEEK.getD ((day + off) % 7) "" = "Wed" then -40
           else 0)
        + (if day < 3 then 150 else 0)
        + (if 10 ≤ d.hour ∧ d.hour ≤ 16 then 30
           else if d.hour < 8 ∨ d.hour > 20 then -30
           else 0)) := by
  simp only [FlightOption.init]
  split_ifs <;> omega

/-- C1: calculate_score is the pure weighted sum price + day_index * 5
+ (0 if direct else 60) + (40 if Awkward else 0) - (50 if premium tier,
i.e. quality_bonus, else 0), depending on no other attribute; the fixed
offer with price 500, day_index 10, layover, Awkward, Premium scores 600
(not the 650 the spec scenario miscomputed), and the fixed offer with
price 700, day_index 0, direct, Prime, Budget scores 700. -/
theorem calculate_score_spec :
    (∀ o : FlightOption,
      o.calculate_score = o.price + (o.day_index : ℤ) * 5
        + (if o.is_direct then 0 else 60)
        + (if o.time_quality = "Awkward" then 40 else 0)
        - (if o.quality_bonus then 50 else 0)) ∧
    (FlightOption.mk 10 "Mon" "LuxAir" true false 500 "05:00" "Awkward").calculate_score
      = 600 ∧
    (FlightOption.mk 0 "Mon" "CheapJet" false true 700 "12:00" "Prime").calculate_score
      = 700 := by
  refine ⟨fun o => ?_, by decide, by decide⟩
  obtain ⟨di, dn, al, qb, dir, pr, ts, tq⟩ := o
  simp only [FlightOption.calculate_score]
  cases qb <;> cases dir <;> by_cases h : tq = "Awkward" <;>
    simp [h, VALUE_OF_DIRECT_FLIGHT, VALUE_OF_GOOD_TIME,
      VALUE_OF_PREMIUM_AIRLINE, DAILY_PATIENCE_COST]

/-- C1 counterexample: the offer of the first spec scenario (price 500,
day_index 10, layover, Awkward time, premium tier) scores 600, not the 650
the claim states: 500 + 50 + 60 + 40 - 50 = 600. -/
theorem calculate_score_scenario_counterexample :
    (FlightOption.mk 10 "Mon" "LuxAir" true false 500 "05:00" "Awkward").calculate_score
        = 600 ∧
    ¬ (FlightOption.mk 10 "Mon" "LuxAir" true false 500 "05:00" "Awkward").calculate_score
        = 650 := by
  decide

/-- C3: find_best_flight on the empty sequence returns none: the scan never
updates the initial None accumulator, so no offer is fabricated and no
failure is possible (the embedding is a total function into Option). -/
theorem find_best_flight_nil : find_best_flight [] = none := rfl

/-- Proof device for the selection scan: once a best flight exists, each step
keeps it unless the new flight scores strictly lower. -/
def pickMin (b f : FlightOption) : FlightOption :=
  if f.calculate_score < b.calculate_score then f else b

/-- A scan step on a state that already holds a best flight and its score
behaves like pickMin. -/
lemma bestStep_some (b f : FlightOption) :
    bestStep (some b, (b.calculate_score : WithTop ℤ)) f =
      (some (pickMin b f), ((pickMin b f).calculate_score : WithTop ℤ)) := by
  simp only [bestStep, pickMin]
  by_cases h : f.calculate_score < b.calculate_score <;>
    simp [h, WithTop.coe_lt_coe]

/-- Folding the scan from a state holding best flight b tracks the pickMin
fold from b together with its score. -/
lemma foldl_bestStep_some (xs : List FlightOption) :
    ∀ b, xs.foldl bestStep (some b, (b.calculate_score : WithTop ℤ)) =
      (some (xs.foldl pickMin b),
        ((xs.foldl pickMin b).calculate_score : WithTop ℤ)) := by
  induction xs with
  | nil => intro b; rfl
  | cons y ys ih =>
    intro b
    rw [List.foldl_cons, bestStep_some, List.foldl_cons]
    exact ih (pickMin b y)

/-- On a nonempty list, the first flight always replaces the initial None
state (any integer score is strictly below the top element standing for the
float infinity), after which the scan is the pickMin fold from the head. -/
lemma find_best_flight_cons (x : FlightOption) (xs : List FlightOption) :
    find_best_flight (x :: xs) = some (xs.foldl pickMin x) := by
  unfold find_best_flight
  rw [List.foldl_cons]
  have h0 : bestStep (none, (⊤ : WithTop ℤ)) x =
      (some x, (x.calculate_score : WithTop ℤ)) := by
    simp [bestStep, WithTop.coe_lt_top]
  rw [h0, foldl_bestStep_some]

/-- The pickMin fold result scores no more than the seed and no more than any
list element. -/
lemma foldl_pickMin_le (xs : List FlightOption) :
    ∀ x, (xs.foldl pickMin x).calculate_score ≤ x.calculate_score ∧
      ∀ o ∈ xs, (xs.foldl pickMin x).calculate_score ≤ o.calculate_score := by
  induction xs with
  | nil => intro x; exact ⟨le_refl _, by simp⟩
  | cons y ys ih =>
    intro x
    rw [List.foldl_cons]
    obtain ⟨h1, h2⟩ := ih (pickMin x y)
    have hx : (pickMin x y).calculate_score ≤ x.calculate_score := by
      simp only [pickMin]; split_ifs with h
      · exact le_of_lt h
      · exact le_refl _
    have hy : (pickMin x y).calculate_score ≤ y.calculate_score := by
      simp only [pickMin]; split_ifs with h
      · exact le_refl _
      · exact not_lt.mp h
    refine ⟨le_trans h1 hx, ?_⟩
    intro o ho
    rcases List.mem_cons.mp ho with rfl | ho
    · exact le_trans h1 hy
    · exact h2 o ho

/-- The pickMin fold result sits at a position before which every element
scores strictly higher: the strict less-than update keeps the earliest
minimum. -/
lemma foldl_pickMin_first (xs : List FlightOption) :
    ∀ x, ∃ i, (x :: xs).get? i = some (xs.foldl pickMin x) ∧
      ∀ j, j < i → ∀ o, (x :: xs).get? j = some o →
        (xs.foldl pickMin x).calculate_score < o.calculate_score := by
  induction xs with
  | nil =>
    intro x
    exact ⟨0, rfl, fun j hj => absurd hj (Nat.not_lt_zero j)⟩
  | cons y ys ih =>
    intro x
    rw [List.foldl_cons]
    by_cases hxy : y.calculate_score < x.calculate_score
    · have hpick : pickMin x y = y := by simp [pickMin, hxy]
      rw [hpick]
      obtain ⟨i, hi, hstrict⟩ := ih y
      refine ⟨i + 1, hi, ?_⟩
      intro j hj o ho
      rcases j with _ | j
      · obtain rfl : x = o := Option.some.inj ho
        calc (ys.foldl pickMin y).calculate_score
            ≤ y.calculate_score := (foldl_pickMin_le ys y).1
          _ < x.calculate_score := hxy
      · exact hstrict j (by omega) o ho
    · have hpick : pickMin x y = x := by simp [pickMin, hxy]
      rw [hpick]
      obtain ⟨i, hi, hstrict⟩ := ih x
      rcases i with _ | i
      · refine ⟨0, hi, fun j hj => absurd hj (Nat.not_lt_zero j)⟩
      · refine ⟨i + 2, hi, ?_⟩
        intro j hj o ho
        rcases j with _ | (_ | j)
        · obtain rfl : x = o := Option.some.inj ho
          exact hstrict 0 (by omega) x rfl
        · obtain rfl : y = o := Option.some.inj ho
          calc (ys.foldl pickMin x).calculate_score
              < x.calculate_score := hstrict 0 (by omega) x rfl
            _ ≤ y.calculate_score := not_lt.mp hxy
        · exact hstrict (j + 1) (by omega) o ho

/-- C2: on every nonempty list, find_best_flight returns some offer of the
list whose score is a minimum over the whole list, and every offer at an
earlier position than the returned one scores strictly higher, so the first
offer attaining the minimum wins ties. -/
theorem find_best_flight_spec (flights : List FlightOption)
    (hne : flights ≠ []) :
    ∃ b, find_best_flight flights = some b ∧
      (∀ o ∈ flights, b.calculate_score ≤ o.calculate_score) ∧
      ∃ i, flights.get? i = some b ∧
        ∀ j, j < i → ∀ o, flights.get? j = some o →
          b.calculate_score < o.calculate_score := by
  match flights, hne with
  | x :: xs, _ =>
    refine ⟨xs.foldl pickMin x, find_best_flight_cons x xs, ?_, ?_⟩
    · intro o ho
      rcases List.mem_cons.mp ho with rfl | ho
      · exact (foldl_pickMin_le xs o).1
      · exact (foldl_pickMin_le xs x).2 o ho
    · exact foldl_pickMin_first xs x

/-- C2 witness: a concrete market of two offers with scores 900 and 650; the
theorem applies and the selection facts evaluate on it. -/
theorem find_best_flight_spec_witness :
    ∃ b, find_best_flight
        [FlightOption.mk 0 "Mon" "CheapJet" false true 900 "12:00" "Standard",
         FlightOption.mk 0 "Mon" "CheapJet" false true 650 "12:00" "Standard"]
        = some b ∧
      (∀ o ∈ [FlightOption.mk 0 "Mon" "CheapJet" false true 900 "12:00" "Standard",
              FlightOption.mk 0 "Mon" "CheapJet" false true 650 "12:00" "Standard"],
        b.calculate_score ≤ o.calculate_score) ∧
      ∃ i, [FlightOption.mk 0 "Mon" "CheapJet" false true 900 "12:00" "Standard",
            FlightOption.mk 0 "Mon" "CheapJet" false true 650 "12:00" "Standard"].get? i
          = some b ∧
        ∀ j, j < i → ∀ o,
          [FlightOption.mk 0 "Mon" "CheapJet" false true 900 "12:00" "Standard",
           FlightOption.mk 0 "Mon" "CheapJet" false true 650 "12:00" "Standard"].get? j
            = some o →
          b.calculate_score < o.calculate_score :=
  find_best_flight_spec _ (List.cons_ne_nil _ _)

/-- The base market price after k drift-and-floor steps from the initial
draw p: step k adds the drawn drift for day k and floors the result at 200,
matching the tail of each generation loop iteration. -/
def basePriceAt (steps : ℕ → ℤ) (p : ℤ) : ℕ → ℤ
  | 0 => p
  | k + 1 => max 200 (basePriceAt steps p k + steps k)

/-- Shifting the walk by one day: k+1 steps from p with drifts from day d
equal k steps from the once-advanced price with drifts from day d+1. -/
lemma basePriceAt_shift (steps : ℕ → ℤ) (d : ℕ) (p : ℤ) (k : ℕ) :
    basePriceAt (fun j => steps (d + j)) p (k + 1) =
      basePriceAt (fun j => steps (d + 1 + j)) (max 200 (p + steps d)) k := by
  induction k with
  | zero => simp [basePriceAt]
  | succ k ihk =>
    have e1 : basePriceAt (fun j => steps (d + j)) p (k + 1 + 1)
        = max 200 (basePriceAt (fun j => steps (d + j)) p (k + 1)
            + steps (d + (k + 1))) := rfl
    have e2 : basePriceAt (fun j => steps (d + 1 + j)) (max 200 (p + steps d)) (k + 1)
        = max 200 (basePriceAt (fun j => steps (d + 1 + j)) (max 200 (p + steps d)) k
            + steps (d + 1 + k)) := rfl
    rw [e1, e2, ihk]
    have h : d + (k + 1) = d + 1 + k := by omega
    rw [h]

/-- The generation loop emits one offer per remaining day. -/
lemma genLoop_length (off : ℕ) (draws : ℕ → Draws) (steps : ℕ → ℤ) :
    ∀ rem d mp, (genLoop off draws steps d rem mp).length = rem := by
  intro rem
  induction rem with
  | zero => intro d mp; rfl
  | succ rem ih => intro d mp; simp [genLoop, ih]

/-- Position i of the generation loop started at day d with market price mp
holds the offer for day d+i, constructed from the i times advanced market
price: the loop advances the walk strictly after emitting each offer. -/
lemma genLoop_get? (off : ℕ) (draws : ℕ → Draws) (steps : ℕ → ℤ) :
    ∀ i rem d mp, i < rem →
      (genLoop off draws steps d rem mp).get? i =
        some (FlightOption.init (d + i)
          (basePriceAt (fun j => steps (d + j)) mp i) off (draws (d + i))) := by
  intro i
  induction i with
  | zero =>
    intro rem d mp h
    match rem, h with
    | rem + 1, _ => simp [genLoop, basePriceAt]
  | succ i ih =>
    intro rem d mp h
    match rem, h with
    | rem + 1, h =>
      have e : (genLoop off draws steps d (rem + 1) mp).get? (i + 1)
          = (genLoop off draws steps (d + 1) rem (max 200 (mp + steps d))).get? i := rfl
      rw [e, ih rem (d + 1) (max 200 (mp + steps d)) (by omega),
        ← basePriceAt_shift]
      have hd : d + 1 + i = d + (i + 1) := by omega
      rw [hd]

/-- Every member of the generation loop output is a constructor result for
some day and some market price, with the shared start offset and the draws
for that day. -/
lemma mem_genLoop (off : ℕ) (draws : ℕ → Draws) (steps : ℕ → ℤ) :
    ∀ rem d mp o, o ∈ genLoop off draws steps d rem mp →
      ∃ day mp2, o = FlightOption.init day mp2 off (draws day) := by
  intro rem
  induction rem with
  | zero => intro d mp o ho; simp [genLoop] at ho
  | succ rem ih =>
    intro d mp o ho
    simp only [genLoop] at ho
    rcases List.mem_cons.mp ho with rfl | ho
    · exact ⟨d, mp, rfl⟩
    · exact ih _ _ o ho

/-- C4: with the initial base price drawn in [700, 1100] and every drift
step in [-60, 60], the offer at position k of the generated market is
constructed from the base price advanced by exactly k drift-and-floor steps
from the initial draw, and the step from day k to day k+1 adds the drawn
drift and then floors at 200; so day k+1 is priced from the k+1 times
advanced walk, never from the initial draw alone. -/
theorem generate_flight_data_price_coupling (days : ℤ) (p : ℤ) (off : ℕ)
    (draws : ℕ → Draws) (steps : ℕ → ℤ) (k : ℕ)
    (_hp : 700 ≤ p ∧ p ≤ 1100) (_hs : ∀ i, -60 ≤ steps i ∧ steps i ≤ 60)
    (hk : (k : ℤ) < days) :
    (generate_flight_data days p off draws steps).get? k =
      some (FlightOption.init k (basePriceAt steps p k) off (draws k)) ∧
    basePriceAt steps p (k + 1) = max 200 (basePriceAt steps p k + steps k) := by
  constructor
  · unfold generate_flight_data
    have hk2 : k < days.toNat := by omega
    rw [genLoop_get? off draws steps k days.toNat 0 p hk2]
    have h1 : (fun j => steps (0 + j)) = steps := funext fun j => by rw [Nat.zero_add]
    simp only [h1, Nat.zero_add]
  · rfl

/-- C4 witness: a concrete two-day market with zero drift steps; both
coupling facts evaluate on it. -/
theorem generate_flight_data_price_coupling_witness :
    (generate_flight_data 2 800 0 (fun _ => Draws.mk (1/2) (1/2) 12)
        (fun _ => 0)).get? 1 =
      some (FlightOption.init 1 (basePriceAt (fun _ => 0) 800 1) 0
        (Draws.mk (1/2) (1/2) 12)) ∧
    basePriceAt (fun _ => 0) 800 (1 + 1) =
      max 200 (basePriceAt (fun _ => 0) 800 1 + 0) :=
  generate_flight_data_price_coupling 2 800 0 (fun _ => Draws.mk (1/2) (1/2) 12)
    (fun _ => 0) 1 (by decide) (by intro i; constructor <;> norm_num) (by decide)

/-- C6: for every positive day count, the generator returns exactly that
many offers and the offer at each position k has day_index k, so the day
indices run 0 to N-1 in order. -/
theorem generate_flight_data_length_spec (days : ℤ) (p : ℤ) (off : ℕ)
    (draws : ℕ → Draws) (steps : ℕ → ℤ) (h : 0 < days) :
    ((generate_flight_data days p off draws steps).length : ℤ) = days ∧
    ∀ k, k < (generate_flight_data days p off draws steps).length →
      ∃ o, (generate_flight_data days p off draws steps).get? k = some o ∧
        o.day_index = k := by
  constructor
  · unfold generate_flight_data
    rw [genLoop_length]
    omega
  · intro k hk
    unfold generate_flight_data at hk ⊢
    rw [genLoop_length] at hk
    refine ⟨_, genLoop_get? off draws steps k days.toNat 0 p hk, ?_⟩
    rw [FlightOption.init_day_index]
    omega

/-- C6 witness: a concrete three-day market; the length and indexing facts
evaluate on it. -/
theorem generate_flight_data_length_spec_witness :
    ((generate_flight_data 3 800 0 (fun _ => Draws.mk (1/2) (1/2) 12)
        (fun _ => 0)).length : ℤ) = 3 ∧
    ∀ k, k < (generate_flight_data 3 800 0 (fun _ => Draws.mk (1/2) (1/2) 12)
        (fun _ => 0)).length →
      ∃ o, (generate_flight_data 3 800 0 (fun _ => Draws.mk (1/2) (1/2) 12)
          (fun _ => 0)).get? k = some o ∧
        o.day_index = k :=
  generate_flight_data_length_spec 3 800 0 (fun _ => Draws.mk (1/2) (1/2) 12)
    (fun _ => 0) (by decide)

/-- C9: for every nonpositive day count, the generator returns the empty
list: the embedding of Python range over a nonpositive count yields no
iterations, and the function is total, so no failure path exists. -/
theorem generate_flight_data_nonpos (days : ℤ) (p : ℤ) (off : ℕ)
    (draws : ℕ → Draws) (steps : ℕ → ℤ) (h : days ≤ 0) :
    generate_flight_data days p off draws steps = [] := by
  unfold generate_flight_data
  rw [Int.toNat_of_nonpos h]
  rfl

/-- C9 witness: a concrete negative day count yields the empty market. -/
theorem generate_flight_data_nonpos_witness :
    (-3 : ℤ) ≤ 0 ∧
    generate_flight_data (-3) 800 0 (fun _ => Draws.mk (1/2) (1/2) 12)
      (fun _ => 0) = [] :=
  ⟨by decide, generate_flight_data_nonpos (-3) 800 0
    (fun _ => Draws.mk (1/2) (1/2) 12) (fun _ => 0) (by decide)⟩

/-- C7: every offer of a generated market has price at least 100: the hard
floor is the last pricing step of the constructor, applied after the tier,
flight-type, weekday, last-minute and time-of-day modifiers. -/
theorem generate_flight_data_price_floor (days : ℤ) (p : ℤ) (off : ℕ)
    (draws : ℕ → Draws) (steps : ℕ → ℤ) :
    ∀ o ∈ generate_flight_data days p off draws steps, 100 ≤ o.price := by
  intro o ho
  obtain ⟨day, mp2, rfl⟩ := mem_genLoop off draws steps days.toNat 0 p o ho
  rw [FlightOption.init_price]
  exact le_max_left _ _

/-- C7 witness: the single offer of a concrete one-day market is a member of
the generated list and its price is at least 100. -/
theorem generate_flight_data_price_floor_witness :
    FlightOption.init 0 800 0 (Draws.mk (1/2) (1/2) 12) ∈
      generate_flight_data 1 800 0 (fun _ => Draws.mk (1/2) (1/2) 12)
        (fun _ => 0) ∧
    100 ≤ (FlightOption.init 0 800 0 (Draws.mk (1/2) (1/2) 12)).price :=
  ⟨List.Mem.head _, generate_flight_data_price_floor 1 800 0
    (fun _ => Draws.mk (1/2) (1/2) 12) (fun _ => 0) _ (List.Mem.head _)⟩

/-- C8: every offer of a generated market has day_name equal to the weekday
list entry at day_index plus the start offset, modulo 7; the offset is one
parameter of the whole generation run (drawn once in [0, 6]), shared by all
offers. -/
theorem generate_flight_data_day_name (days : ℤ) (p : ℤ) (off : ℕ)
    (draws : ℕ → Draws) (steps : ℕ → ℤ) (_hoff : off ≤ 6) :
    ∀ o ∈ generate_flight_data days p off draws steps,
      o.day_name = DAYS_OF_WEEK.getD ((o.day_index + off) % 7) "" := by
  intro o ho
  obtain ⟨day, mp2, rfl⟩ := mem_genLoop off draws steps days.toNat 0 p o ho
  rw [FlightOption.init_day_name, FlightOption.init_day_index]

/-- C8 witness: the single offer of a concrete one-day market satisfies the
day-name equation. -/
theorem generate_flight_data_day_name_witness :
    FlightOption.init 0 800 3 (Draws.mk (1/2) (1/2) 12) ∈
      generate_flight_data 1 800 3 (fun _ => Draws.mk (1/2) (1/2) 12)
        (fun _ => 0) ∧
    (FlightOption.init 0 800 3 (Draws.mk (1/2) (1/2) 12)).day_name =
      DAYS_OF_WEEK.getD
        (((FlightOption.init 0 800 3 (Draws.mk (1/2) (1/2) 12)).day_index + 3) % 7)
        "" :=
  ⟨List.Mem.head _, generate_flight_data_day_name 1 800 3
    (fun _ => Draws.mk (1/2) (1/2) 12) (fun _ => 0) (by decide) _ (List.Mem.head _)⟩

/-- Any offer scores at least its price minus 50: the patience term is
nonnegative, the layover and awkward-time terms only add, and the only
subtracted term is the premium bonus of 50. -/
lemma calculate_score_ge_price_sub (o : FlightOption) :
    o.price - 50 ≤ o.calculate_score := by
  simp only [FlightOption.calculate_score, VALUE_OF_DIRECT_FLIGHT,
    VALUE_OF_GOOD_TIME, VALUE_OF_PREMIUM_AIRLINE, DAILY_PATIENCE_COST]
  split_ifs <;> omega

/-- C10: every offer of a generated market scores at least its price minus
50 and hence at least 50; in particular no generated offer ever has a
negative score, even though the score type allows negatives. -/
theorem generate_flight_data_score_floor (days : ℤ) (p : ℤ) (off : ℕ)
    (draws : ℕ → Draws) (steps : ℕ → ℤ) :
    ∀ o ∈ generate_flight_data days p off draws steps,
      o.price - 50 ≤ o.calculate_score ∧ 50 ≤ o.calculate_score := by
  intro o ho
  have hscore := calculate_score_ge_price_sub o
  have hprice : 100 ≤ o.price := by
    obtain ⟨day, mp2, rfl⟩ := mem_genLoop off draws steps days.toNat 0 p o ho
    rw [FlightOption.init_price]
    exact le_max_left _ _
  exact ⟨hscore, by omega⟩

/-- C10 witness: the single offer of a concrete one-day market satisfies
both score lower bounds. -/
theorem generate_flight_data_score_floor_witness :
    FlightOption.init 0 800 0 (Draws.mk (1/2) (1/2) 12) ∈
      generate_flight_data 1 800 0 (fun _ => Draws.mk (1/2) (1/2) 12)
        (fun _ => 0) ∧
    ((FlightOption.init 0 800 0 (Draws.mk (1/2) (1/2) 12)).price - 50 ≤
        (FlightOption.init 0 800 0 (Draws.mk (1/2) (1/2) 12)).calculate_score ∧
      50 ≤ (FlightOption.init 0 800 0 (Draws.mk (1/2) (1/2) 12)).calculate_score) :=
  ⟨List.Mem.head _, generate_flight_data_score_floor 1 800 0
    (fun _ => Draws.mk (1/2) (1/2) 12) (fun _ => 0) _ (List.Mem.head _)⟩

/-- The layover threshold on the uniform grid of hundredths: a flight-type
draw of k hundredths falls below 2/5 exactly for the 40 values k < 40. -/
lemma typeDraw_grid_iff (k : ℕ) : ((k : ℚ)/100 < 2/5) ↔ k < 40 := by
  rw [div_lt_div_iff₀ (by norm_num) (by norm_num)]
  norm_cast
  omega

/-- On the grid of hundredths, membership of the layover outcome reduces to
k < 40. -/
lemma grid_layover_iff (k : ℕ) :
    ((FlightOption.init 0 800 0 (Draws.mk (1/2) ((k : ℚ)/100) 12)).is_direct
      = false) ↔ k < 40 := by
  rw [FlightOption.init_is_direct]
  simp only [Draws.mk.injEq]
  by_cases h : ((k : ℚ)/100 < 2/5)
  · simp [h, (typeDraw_grid_iff k).mp h]
  · have hk : ¬ k < 40 := fun hk => h ((typeDraw_grid_iff k).mpr hk)
    simp [h, hk]

/-- Of the 100 equally spaced flight-type draws k/100, exactly 40 produce a
layover. -/
lemma layover_grid_card :
    ((Finset.range 100).filter
      (fun k : ℕ => (FlightOption.init 0 800 0
        (Draws.mk (1/2) ((k : ℚ)/100) 12)).is_direct = false)).card = 40 := by
  rw [Finset.filter_congr (fun k _ => grid_layover_iff k)]
  decide

/-- Of the 100 equally spaced flight-type draws k/100, exactly 60 produce a
direct flight. -/
lemma direct_grid_card :
    ((Finset.range 100).filter
      (fun k : ℕ => (FlightOption.init 0 800 0
        (Draws.mk (1/2) ((k : ℚ)/100) 12)).is_direct = true)).card = 60 := by
  have hiff : ∀ k : ℕ, k ∈ Finset.range 100 →
      (((FlightOption.init 0 800 0
        (Draws.mk (1/2) ((k : ℚ)/100) 12)).is_direct = true) ↔ ¬ k < 40) := by
    intro k _
    rw [FlightOption.init_is_direct]
    by_cases h : ((k : ℚ)/100 < 2/5)
    · simp [h, (typeDraw_grid_iff k).mp h]
    · have hk : ¬ k < 40 := fun hk => h ((typeDraw_grid_iff k).mpr hk)
      simp [h, hk]
  rw [Finset.filter_congr hiff]
  decide

/-- C5 (amended): the constructor makes the offer a layover exactly when the
flight-type draw falls below 0.40 (so, for a uniform draw, with probability
0.40: on the uniform grid of hundredths, 40 of the 100 draws give a layover
and 60 give a direct flight, the more likely outcome); a direct flight
carries a price premium over the otherwise identical layover: 80 more
before flooring, the +20 direct modifier against the -60 layover one. -/
theorem flight_type_spec :
    (∀ (day : ℕ) (mp : ℤ) (off : ℕ) (d : Draws),
      (FlightOption.init day mp off d).is_direct = false ↔ d.typeDraw < 2/5) ∧
    (∀ (day : ℕ) (mp : ℤ) (off : ℕ) (d d' : Draws),
      d.airlineDraw = d'.airlineDraw → d.hour = d'.hour →
      d.typeDraw < 2/5 → ¬ d'.typeDraw < 2/5 → 260 ≤ mp →
      (FlightOption.init day mp off d').price =
        (FlightOption.init day mp off d).price + 80) ∧
    ((Finset.range 100).filter
      (fun k : ℕ => (FlightOption.init 0 800 0
        (Draws.mk (1/2) ((k : ℚ)/100) 12)).is_direct = false)).card = 40 ∧
    ((Finset.range 100).filter
      (fun k : ℕ => (FlightOption.init 0 800 0
        (Draws.mk (1/2) ((k : ℚ)/100) 12)).is_direct = true)).card = 60 := by
  refine ⟨?_, ?_, layover_grid_card, direct_grid_card⟩
  · intro day mp off d
    rw [FlightOption.init_is_direct]
    by_cases h : d.typeDraw < 2/5 <;> simp [h]
  · intro day mp off d d' h1 h2 h3 h4 h5
    rw [FlightOption.init_price, FlightOption.init_price, h1, h2,
      if_pos h3, if_neg h4]
    split_ifs <;> omega

/-- C5 witness: a concrete layover draw of 1/5 and a direct draw of 1/2 with
equal tier draw and hour; the branch characterization and the 80 price
difference follow by applying the theorem. -/
theorem flight_type_spec_witness :
    ((FlightOption.init 0 800 0 (Draws.mk (1/2) (1/5) 12)).is_direct = false ↔
      ((1 : ℚ)/5 < 2/5)) ∧
    (FlightOption.init 0 800 0 (Draws.mk (1/2) (1/2) 12)).price =
      (FlightOption.init 0 800 0 (Draws.mk (1/2) (1/5) 12)).price + 80 :=
  ⟨flight_type_spec.1 0 800 0 (Draws.mk (1/2) (1/5) 12),
   flight_type_spec.2.1 0 800 0 (Draws.mk (1/2) (1/5) 12)
     (Draws.mk (1/2) (1/2) 12) rfl rfl
     (by show (1 : ℚ)/5 < 2/5; norm_num)
     (by show ¬ ((1 : ℚ)/2 < 2/5); norm_num)
     (by norm_num)⟩

/-- C5 counterexample: on the uniform grid of 100 equally spaced flight-type
draws, only 40 yield a layover while 60 yield a direct flight, so layovers
are the less common outcome and direct flights the more likely one, contrary
to the claim that direct flights are the less likely outcome and layovers
more common. -/
theorem flight_type_counterexample :
    ((Finset.range 100).filter
      (fun k : ℕ => (FlightOption.init 0 800 0
        (Draws.mk (1/2) ((k : ℚ)/100) 12)).is_direct = false)).card = 40 ∧
    ((Finset.range 100).filter
      (fun k : ℕ => (FlightOption.init 0 800 0
        (Draws.mk (1/2) ((k : ℚ)/100) 12)).is_direct = true)).card = 60 ∧
    ((Finset.range 100).filter
      (fun k : ℕ => (FlightOption.init 0 800 0
        (Draws.mk (1/2) ((k : ℚ)/100) 12)).is_direct = false)).card <
      ((Finset.range 100).filter
        (fun k : ℕ => (FlightOption.init 0 800 0
          (Draws.mk (1/2) ((k : ℚ)/100) 12)).is_direct = true)).card := by
  refine ⟨layover_grid_card, direct_grid_card, ?_⟩
  rw [layover_grid_card, direct_grid_card]
  omega
